import Mathlib

/-!
Verification of the todo application in `src/routes/todo/home.tsx`.

The file embeds, as Lean functions:
  * the Zod validation schemas (`formSchema` and the validator of
    `updateTodoServerFn`),
  * the persistence accessor (the Prisma client is not part of the
    repository, so its per-operation semantics are modelled from the spec),
  * the five server functions (`getTodosServerFn`, `createTodoServerFn`,
    `deleteTodoServerFn`, `checkedTodoServerFn`, `editTodoServerFn`,
    `updateTodoServerFn`),
  * the client controller (`handleDeleteTodo`, `handleCheckedTodo`,
    `handleEditTodo`, `handleCancelEdit`, `onSubmit`) acting on the
    component state (`listTodo`, `mode`, `editingTodo`).

Server functions are embedded as pure functions from a store and an input to
a `ServerResult`: the returned value or error, the store after the call, and
the list of persistence-accessor operations the call performed (so that
"the persistence accessor is never called" is a statement about the result,
not about the shape of a definition).  A JavaScript `throw` is embedded as
an `Except.error`; `await` of a rejected promise aborts the surrounding
client handler with the client state unchanged, which is embedded by the
error branches of the client functions returning the input state.
-/

namespace TodoApp

/-- A todo record: `id`, `title`, `description`, `completed` — the fields of
the Prisma `todo` model used by `home.tsx`. -/
structure Todo where
  id : String
  title : String
  description : String
  completed : Bool
deriving DecidableEq, Repr

/-- Modelled from the spec: the persisted state is "one table/collection of
Todo records keyed by `id`" and `id` is "generated by the persistence layer
at creation".  `todos` is the table; `nextId` drives id generation (the spec
leaves the identifier opaque, so fresh ids are drawn from a counter). -/
structure Store where
  todos : List Todo
  nextId : Nat
deriving DecidableEq, Repr

/-- The id the persistence layer assigns to the next created record. -/
def freshId (s : Store) : String := toString s.nextId

/-- Modelled from the spec: `listAll() -> sequence of Todo`
(`prisma.todo.findMany()`). -/
def prismaFindMany (s : Store) : List Todo := s.todos

/-- Modelled from the spec: `findById(id) -> Todo | NotFound`
(`prisma.todo.findUnique({ where: { id } })`, which resolves to the record
or to `null`). -/
def prismaFindUnique (s : Store) (i : String) : Option Todo :=
  s.todos.find? (fun t => t.id = i)

/-- Modelled from the spec: `create(title, description) -> Todo` "assigns new
`id`" (`prisma.todo.create({ data })`); the caller in `home.tsx` passes
`completed` explicitly. -/
def prismaCreate (s : Store) (title description : String) (completed : Bool) :
    Todo × Store :=
  let t : Todo := ⟨freshId s, title, description, completed⟩
  (t, ⟨s.todos ++ [t], s.nextId + 1⟩)

/-- The `data` argument of `prisma.todo.update`: each field is either set to
a new value or left untouched. -/
structure TodoPatch where
  title : Option String := none
  description : Option String := none
  completed : Option Bool := none
deriving DecidableEq, Repr

/-- Apply an update `data` object to a record: fields present in the patch
are overwritten, absent fields keep their stored value. -/
def applyPatch (p : TodoPatch) (t : Todo) : Todo :=
  { t with
    title := p.title.getD t.title
    description := p.description.getD t.description
    completed := p.completed.getD t.completed }

/-- Modelled from the spec: update "fails with a `NotFound` condition if the
identifier does not exist" (`prisma.todo.update({ where: { id }, data })`
throws a known-request error P2025 when no record matches), otherwise
overwrites the given fields and resolves to the updated record. -/
def prismaUpdate (s : Store) (i : String) (p : TodoPatch) :
    Except Unit (Todo × Store) :=
  match s.todos.find? (fun t => t.id = i) with
  | none => .error ()
  | some t =>
    let t2 := applyPatch p t
    .ok (t2, ⟨s.todos.map (fun u => if u.id = i then t2 else u), s.nextId⟩)

/-- Modelled from the spec: `delete(id) -> void | NotFound`
(`prisma.todo.delete({ where: { id } })` throws P2025 when no record
matches, otherwise removes the record and resolves to it). -/
def prismaDelete (s : Store) (i : String) : Except Unit (Todo × Store) :=
  match s.todos.find? (fun t => t.id = i) with
  | none => .error ()
  | some t => .ok (t, ⟨s.todos.filter (fun u => ¬ u.id = i), s.nextId⟩)

/-- A single Zod issue: the offending field and the violated bound, as
carried by the structured `ZodError` a failing validator raises. -/
inductive IssueCode where
  | tooSmall (minimum : Nat)
  | tooBig (maximum : Nat)
deriving DecidableEq, Repr

/-- A Zod issue with the path of the offending field. -/
structure ZodIssue where
  path : String
  code : IssueCode
deriving DecidableEq, Repr

/-- Issues produced by `z.string().min(lo).max(hi)` on field `path` (string
length bounds, inclusive). -/
def zStringIssues (path : String) (lo hi : Nat) (s : String) : List ZodIssue :=
  (if s.length < lo then [⟨path, .tooSmall lo⟩] else []) ++
    (if hi < s.length then [⟨path, .tooBig hi⟩] else [])

/-- `formSchema` of `home.tsx`: `title` between 5 and 32 characters,
`description` between 20 and 100 characters (the custom error messages are
presentation only and are not modelled).  Returns the list of issues; the
input validates iff the list is empty. -/
def formSchema (title description : String) : List ZodIssue :=
  zStringIssues "title" 5 32 title ++ zStringIssues "description" 20 100 description

/-- The inline validator of `updateTodoServerFn`: `id: z.string()` (always
satisfied by a string input), `title: z.string().min(5).max(32)`,
`description: z.string().min(20).max(100)`. -/
def updateSchemaIssues (title description : String) : List ZodIssue :=
  zStringIssues "title" 5 32 title ++ zStringIssues "description" 20 100 description

/-- Errors a server function can deliver to its caller.
`validationError` is the structured `ZodError` the input validator raises;
`prismaNotFound` is Prisma's structured known-request error (code P2025)
raised by `update`/`delete` on a missing id; `thrownError` is a plain
JavaScript `throw new Error(message)`, carrying nothing but its raw
message. -/
inductive ServerError where
  | validationError (issues : List ZodIssue)
  | prismaNotFound
  | thrownError (message : String)
deriving DecidableEq, Repr

/-- Whether an error is a structured error identifying the failure kind
(a `ZodError` issue list or Prisma's typed P2025 error), as opposed to a
plain `Error` whose only content is its raw message string. -/
def ServerError.structured : ServerError → Bool
  | .validationError _ => true
  | .prismaNotFound => true
  | .thrownError _ => false

/-- One invocation of the persistence accessor, as performed by a server
function handler. -/
inductive AccessorOp where
  | findMany
  | create (title description : String) (completed : Bool)
  | findUnique (i : String)
  | update (i : String) (p : TodoPatch)
  | delete (i : String)
deriving DecidableEq, Repr

/-- Outcome of one server-function call: the value returned to the caller
(or the error propagated to it), the store after the call, and the
persistence-accessor operations the call performed, in order. -/
structure ServerResult (α : Type) where
  result : Except ServerError α
  store : Store
  calls : List AccessorOp
deriving Repr

/-- `true` iff the call succeeded. -/
def resultOk {α : Type} : Except ServerError α → Bool
  | .ok _ => true
  | .error _ => false

/-- `getTodosServerFn`: returns `prisma.todo.findMany()`. -/
def getTodosServerFn (s : Store) : ServerResult (List Todo) :=
  ⟨.ok (prismaFindMany s), s, [.findMany]⟩

/-- `createTodoServerFn`: input validated by `formSchema`; on success the
handler runs `prisma.todo.create` with the given `title`, `description` and
`completed: false`; a validation failure is raised before the handler body
runs, so no accessor operation is performed. -/
def createTodoServerFn (s : Store) (title description : String) :
    ServerResult Todo :=
  match formSchema title description with
  | [] =>
    let c := prismaCreate s title description false
    ⟨.ok c.1, c.2, [.create title description false]⟩
  | issues => ⟨.error (.validationError issues), s, []⟩

/-- `deleteTodoServerFn`: input validated by `z.object({ id: z.string() })`
(always satisfied by a string id); the handler returns
`prisma.todo.delete({ where: { id } })`, whose P2025 rejection on a missing
id propagates to the caller. -/
def deleteTodoServerFn (s : Store) (i : String) : ServerResult Todo :=
  match prismaDelete s i with
  | .ok c => ⟨.ok c.1, c.2, [.delete i]⟩
  | .error _ => ⟨.error .prismaNotFound, s, [.delete i]⟩

/-- `checkedTodoServerFn`: the handler reads the record with
`prisma.todo.findUnique`; if it is `null` it throws
`new Error("Todo not found")`; otherwise it writes the negation of the
record's `completed` via `prisma.todo.update`. -/
def checkedTodoServerFn (s : Store) (i : String) : ServerResult Todo :=
  match prismaFindUnique s i with
  | none => ⟨.error (.thrownError "Todo not found"), s, [.findUnique i]⟩
  | some t =>
    match prismaUpdate s i { completed := some (!t.completed) } with
    | .ok c =>
      ⟨.ok c.1, c.2, [.findUnique i, .update i { completed := some (!t.completed) }]⟩
    | .error _ =>
      ⟨.error .prismaNotFound, s, [.findUnique i, .update i { completed := some (!t.completed) }]⟩

/-- `editTodoServerFn`: the handler returns
`prisma.todo.findUnique({ where: { id } })` — the record, or `null` when the
id does not exist; no error is raised on a missing id. -/
def editTodoServerFn (s : Store) (i : String) : ServerResult (Option Todo) :=
  ⟨.ok (prismaFindUnique s i), s, [.findUnique i]⟩

/-- `updateTodoServerFn`: input validated by the inline schema (same title
and description bounds as `formSchema`); on success the handler runs
`prisma.todo.update({ where: { id }, data: { title, description } })`, whose
P2025 rejection on a missing id propagates; a validation failure is raised
before the handler body runs, so no accessor operation is performed. -/
def updateTodoServerFn (s : Store) (i title description : String) :
    ServerResult Todo :=
  match updateSchemaIssues title description with
  | [] =>
    match prismaUpdate s i { title := some title, description := some description } with
    | .ok c =>
      ⟨.ok c.1, c.2, [.update i { title := some title, description := some description }]⟩
    | .error _ =>
      ⟨.error .prismaNotFound, s, [.update i { title := some title, description := some description }]⟩
  | issues => ⟨.error (.validationError issues), s, []⟩

/-- The form mode of `RouteComponent`: `"create" | "edit"`. -/
inductive Mode where
  | create
  | edit
deriving DecidableEq, Repr

/-- The client controller state of `RouteComponent`: the `listTodo`,
`mode` and `editingTodo` React states. -/
structure ClientState where
  listTodo : List Todo
  mode : Mode
  editingTodo : Option Todo
deriving DecidableEq, Repr

/-- `handleDeleteTodo`: awaits `deleteTodo({ data: { id } })`; on success it
filters the deleted id out of `listTodo`; a rejected call aborts the
handler before `setListTodo` runs, leaving the client state unchanged. -/
def handleDeleteTodo (cs : ClientState) (s : Store) (i : String) :
    ClientState × Store :=
  match deleteTodoServerFn s i with
  | ⟨.ok _, s2, _⟩ =>
    ({ cs with listTodo := cs.listTodo.filter (fun t => ¬ t.id = i) }, s2)
  | ⟨.error _, s2, _⟩ => (cs, s2)

/-- `handleCheckedTodo`: awaits `checkedTodo({ data: { id } })`; on success
it maps `listTodo`, flipping `completed` of the entry with the given id; a
rejected call aborts the handler, leaving the client state unchanged. -/
def handleCheckedTodo (cs : ClientState) (s : Store) (i : String) :
    ClientState × Store :=
  match checkedTodoServerFn s i with
  | ⟨.ok _, s2, _⟩ =>
    ({ cs with
        listTodo := cs.listTodo.map
          (fun t => if t.id = i then { t with completed := !t.completed } else t) }, s2)
  | ⟨.error _, s2, _⟩ => (cs, s2)

/-- `handleEditTodo`: awaits `editTodo({ data: { id } })`; only when the
returned `todoData` is truthy (a record, not `null`) does it set
`editingTodo` and switch `mode` to edit; on a `null` result it does
nothing. -/
def handleEditTodo (cs : ClientState) (s : Store) (i : String) :
    ClientState × Store :=
  match editTodoServerFn s i with
  | ⟨.ok (some todoData), s2, _⟩ =>
    ({ cs with editingTodo := some todoData, mode := .edit }, s2)
  | ⟨.ok none, s2, _⟩ => (cs, s2)
  | ⟨.error _, s2, _⟩ => (cs, s2)

/-- `handleCancelEdit`: clears `editingTodo` and returns `mode` to
create. -/
def handleCancelEdit (cs : ClientState) : ClientState :=
  { cs with editingTodo := none, mode := .create }

/-- `onSubmit` of `TodoForm`: in edit mode with a record under edit, awaits
`updateTodo` and on success replaces the matching `listTodo` entry with the
returned record, then resets the form and calls `onCancelEdit`; otherwise
awaits `submitTodo` (create) and on success appends the returned record to
`listTodo`.  A rejected call aborts the handler before any `setListTodo` or
mode change, leaving the client state unchanged. -/
def onSubmit (cs : ClientState) (s : Store) (title description : String) :
    ClientState × Store :=
  match cs.mode, cs.editingTodo with
  | .edit, some editingTodo =>
    match updateTodoServerFn s editingTodo.id title description with
    | ⟨.ok updatedTodo, s2, _⟩ =>
      (handleCancelEdit
        { cs with
          listTodo := cs.listTodo.map
            (fun t => if t.id = editingTodo.id then updatedTodo else t) }, s2)
    | ⟨.error _, s2, _⟩ => (cs, s2)
  | _, _ =>
    match createTodoServerFn s title description with
    | ⟨.ok newTodo, s2, _⟩ => ({ cs with listTodo := cs.listTodo ++ [newTodo] }, s2)
    | ⟨.error _, s2, _⟩ => (cs, s2)

/-- The title/description bounds as the spec states them: title length in
[5, 32] and description length in [20, 100], inclusive.  Stated from the
spec's words, to be compared with the schemas embedded from the source. -/
def specInBounds (title description : String) : Prop :=
  5 ≤ title.length ∧ title.length ≤ 32 ∧
    20 ≤ description.length ∧ description.length ≤ 100

instance (title description : String) : Decidable (specInBounds title description) := by
  unfold specInBounds
  infer_instance

/-- A sample record used by concrete witnesses. -/
def demoTodo : Todo :=
  ⟨"1", "Fix a bug", "Steps: open the app and click X.", false⟩

/-- A sample store holding `demoTodo`, with `2` as the next fresh id. -/
def demoStore : Store := ⟨[demoTodo], 2⟩

/-- A sample client state whose list mirrors `demoStore`. -/
def demoClient : ClientState := ⟨[demoTodo], .create, none⟩

/-- `true` iff the result is a validation rejection (the input validator
raised before the handler body ran). -/
def validationRejected {α : Type} : Except ServerError α → Bool
  | .error (.validationError _) => true
  | _ => false

/-- Well-formedness the persistence layer guarantees: `id` is the primary
key of the `todo` table, so no two stored records share an id. -/
def storeWF (s : Store) : Prop := (s.todos.map Todo.id).Nodup

instance (s : Store) : Decidable (storeWF s) := by
  unfold storeWF
  infer_instance

theorem zStringIssues_eq_nil (p : String) (lo hi : Nat) (s : String) :
    zStringIssues p lo hi s = [] ↔ lo ≤ s.length ∧ s.length ≤ hi := by
  unfold zStringIssues
  by_cases h1 : s.length < lo <;> by_cases h2 : hi < s.length <;>
    (simp [h1, h2]; try omega)

theorem formSchema_eq_nil (title description : String) :
    formSchema title description = [] ↔ specInBounds title description := by
  unfold formSchema specInBounds
  rw [List.append_eq_nil, zStringIssues_eq_nil, zStringIssues_eq_nil]
  tauto

theorem updateSchemaIssues_eq_nil (title description : String) :
    updateSchemaIssues title description = [] ↔ specInBounds title description := by
  unfold updateSchemaIssues specInBounds
  rw [List.append_eq_nil, zStringIssues_eq_nil, zStringIssues_eq_nil]
  tauto

theorem prismaUpdate_found (s : Store) (i : String) (p : TodoPatch) (t : Todo)
    (hfind : prismaFindUnique s i = some t) :
    prismaUpdate s i p
      = .ok (applyPatch p t,
          ⟨s.todos.map (fun u => if u.id = i then applyPatch p t else u), s.nextId⟩) := by
  unfold prismaUpdate
  unfold prismaFindUnique at hfind
  rw [hfind]

theorem prismaUpdate_missing (s : Store) (i : String) (p : TodoPatch)
    (hmiss : prismaFindUnique s i = none) :
    prismaUpdate s i p = .error () := by
  unfold prismaUpdate
  unfold prismaFindUnique at hmiss
  rw [hmiss]

theorem prismaDelete_found (s : Store) (i : String) (t : Todo)
    (hfind : prismaFindUnique s i = some t) :
    prismaDelete s i = .ok (t, ⟨s.todos.filter (fun u => ¬ u.id = i), s.nextId⟩) := by
  unfold prismaDelete
  unfold prismaFindUnique at hfind
  rw [hfind]

theorem prismaDelete_missing (s : Store) (i : String)
    (hmiss : prismaFindUnique s i = none) :
    prismaDelete s i = .error () := by
  unfold prismaDelete
  unfold prismaFindUnique at hmiss
  rw [hmiss]

theorem find?_id_filter_ne (l : List Todo) (i : String) :
    (l.filter (fun u => ¬ u.id = i)).find? (fun t => t.id = i) = none := by
  induction l with
  | nil => rfl
  | cons a l ih =>
    by_cases h : a.id = i <;> simp [List.filter_cons, h, ih]

theorem find?_id_map_set (l : List Todo) (i : String) (t2 : Todo) (h2 : t2.id = i) :
    (l.map (fun u => if u.id = i then t2 else u)).find? (fun t => t.id = i)
      = (l.find? (fun t => t.id = i)).map (fun _ => t2) := by
  induction l with
  | nil => rfl
  | cons a l ih =>
    by_cases h : a.id = i
    · simp [h, h2]
    · simp [h, ih]

/-- C1.  The create and update server functions accept a title/description
pair exactly when the title length is in [5, 32] and the description length
is in [20, 100] (both inclusive); outside those bounds the call is rejected
by the validator, no persistence-accessor operation is performed, and the
store is untouched. -/
theorem validation_bounds_characterization (s : Store) (i title description : String) :
    (resultOk (createTodoServerFn s title description).result = true
        ↔ specInBounds title description)
    ∧ (validationRejected (updateTodoServerFn s i title description).result = false
        ↔ specInBounds title description)
    ∧ (¬ specInBounds title description →
        (createTodoServerFn s title description).calls = []
        ∧ (createTodoServerFn s title description).store = s
        ∧ (updateTodoServerFn s i title description).calls = []
        ∧ (updateTodoServerFn s i title description).store = s) := by
  by_cases hb : specInBounds title description
  · have hf : formSchema title description = [] := (formSchema_eq_nil _ _).mpr hb
    have hu : updateSchemaIssues title description = [] :=
      (updateSchemaIssues_eq_nil _ _).mpr hb
    refine ⟨?_, ?_, fun hn => absurd hb hn⟩
    · simp [createTodoServerFn, hf, resultOk, hb]
    · cases hp : prismaUpdate s i { title := some title, description := some description } with
      | ok c => simp [updateTodoServerFn, hu, hp, validationRejected, hb]
      | error e => simp [updateTodoServerFn, hu, hp, validationRejected, hb]
  · have hf : formSchema title description ≠ [] :=
      fun h => hb ((formSchema_eq_nil _ _).mp h)
    have hu : updateSchemaIssues title description ≠ [] :=
      fun h => hb ((updateSchemaIssues_eq_nil _ _).mp h)
    cases hc : formSchema title description with
    | nil => exact absurd hc hf
    | cons a l =>
      cases hd : updateSchemaIssues title description with
      | nil => exact absurd hd hu
      | cons b m =>
        refine ⟨?_, ?_, fun _ => ?_⟩
        · simp [createTodoServerFn, hc, resultOk, hb]
        · simp [updateTodoServerFn, hd, validationRejected, hb]
        · simp [createTodoServerFn, updateTodoServerFn, hc, hd]

/-- Witness for C1: boundary lengths 5/20 and 32/100 are accepted, and a
too-short title is rejected with no accessor call and no store change. -/
theorem validation_bounds_characterization_witness :
    (resultOk (createTodoServerFn demoStore "abcde" "abcdefghijklmnopqrst").result = true)
    ∧ (resultOk (createTodoServerFn demoStore
        "abcdefghijklmnopqrstuvwxyz012345"
        "0123456789012345678901234567890123456789012345678901234567890123456789012345678901234567890123456789").result = true)
    ∧ ((createTodoServerFn demoStore "Hi" "tiny").calls = []
        ∧ (createTodoServerFn demoStore "Hi" "tiny").store = demoStore
        ∧ (updateTodoServerFn demoStore "1" "Hi" "tiny").calls = []
        ∧ (updateTodoServerFn demoStore "1" "Hi" "tiny").store = demoStore) :=
  ⟨(validation_bounds_characterization demoStore "1" "abcde" "abcdefghijklmnopqrst").1.mpr
      (by decide),
   (validation_bounds_characterization demoStore "1"
      "abcdefghijklmnopqrstuvwxyz012345"
      "0123456789012345678901234567890123456789012345678901234567890123456789012345678901234567890123456789").1.mpr
      (by decide),
   (validation_bounds_characterization demoStore "1" "Hi" "tiny").2.2 (by decide)⟩

/-- C2.  For every title/description within bounds, the create server
function succeeds and the returned record carries the given title and
description with `completed` false. -/
theorem createTodo_ok (s : Store) (title description : String)
    (hb : specInBounds title description) :
    ∃ r, (createTodoServerFn s title description).result = .ok r
      ∧ r.completed = false ∧ r.title = title ∧ r.description = description := by
  have hf : formSchema title description = [] := (formSchema_eq_nil _ _).mpr hb
  exact ⟨⟨freshId s, title, description, false⟩,
    by simp [createTodoServerFn, hf, prismaCreate], rfl, rfl, rfl⟩

/-- Witness for C2 at a concrete in-bounds input. -/
theorem createTodo_ok_witness :
    ∃ r, (createTodoServerFn demoStore "abcde" "abcdefghijklmnopqrst").result = .ok r
      ∧ r.completed = false ∧ r.title = "abcde"
      ∧ r.description = "abcdefghijklmnopqrst" :=
  createTodo_ok demoStore "abcde" "abcdefghijklmnopqrst" (by decide)

theorem checkedTodo_found_eq (s : Store) (i : String) (t : Todo)
    (hfind : prismaFindUnique s i = some t) :
    checkedTodoServerFn s i
      = ⟨.ok { t with completed := !t.completed },
         ⟨s.todos.map
            (fun u => if u.id = i then { t with completed := !t.completed } else u),
          s.nextId⟩,
         [.findUnique i, .update i { completed := some (!t.completed) }]⟩ := by
  have hupd := prismaUpdate_found s i { completed := some (!t.completed) } t hfind
  unfold checkedTodoServerFn
  rw [hfind]
  simp [hupd, applyPatch]

theorem find?_id_after_set (s : Store) (i : String) (t2 : Todo) (h2 : t2.id = i)
    (hsome : (prismaFindUnique s i).isSome = true) :
    prismaFindUnique
        ⟨s.todos.map (fun u => if u.id = i then t2 else u), s.nextId⟩ i = some t2 := by
  unfold prismaFindUnique at *
  rw [find?_id_map_set s.todos i t2 h2]
  cases hf : s.todos.find? (fun t => t.id = i) with
  | none => rw [hf] at hsome; simp at hsome
  | some u => simp

/-- C3.  Toggling an existing id writes the negation of the stored
`completed` value, and a second sequential toggle returns the record —
both the returned one and the stored one — to its original value. -/
theorem checkedTodo_involution (s : Store) (i : String) (t : Todo)
    (hfind : prismaFindUnique s i = some t) :
    (checkedTodoServerFn s i).result = .ok { t with completed := !t.completed }
    ∧ prismaFindUnique (checkedTodoServerFn s i).store i
        = some { t with completed := !t.completed }
    ∧ (checkedTodoServerFn (checkedTodoServerFn s i).store i).result = .ok t
    ∧ prismaFindUnique
        (checkedTodoServerFn (checkedTodoServerFn s i).store i).store i = some t := by
  have hid : t.id = i := by
    have hfind2 : s.todos.find? (fun u => u.id = i) = some t := by
      simpa [prismaFindUnique] using hfind
    have h := List.find?_some hfind2
    simpa using h
  have h1 := checkedTodo_found_eq s i t hfind
  have hfind2 : prismaFindUnique (checkedTodoServerFn s i).store i
      = some { t with completed := !t.completed } := by
    rw [h1]
    exact find?_id_after_set s i { t with completed := !t.completed } hid
      (by rw [hfind]; rfl)
  have h2 := checkedTodo_found_eq (checkedTodoServerFn s i).store i _ hfind2
  have hback : { t with completed := !(!t.completed) } = t := by
    cases t; simp
  refine ⟨by rw [h1], hfind2, ?_, ?_⟩
  · rw [h2]
    simp [hback]
  · rw [h2]
    have := find?_id_after_set (checkedTodoServerFn s i).store i
      { t with completed := !(!t.completed) } (by simpa using hid)
      (by rw [hfind2]; rfl)
    simp only [hback] at this
    simpa using this

/-- Witness for C3 on the sample store: `demoTodo` has id `"1"`. -/
theorem checkedTodo_involution_witness :
    (checkedTodoServerFn demoStore "1").result
        = .ok { demoTodo with completed := !demoTodo.completed }
    ∧ prismaFindUnique (checkedTodoServerFn demoStore "1").store "1"
        = some { demoTodo with completed := !demoTodo.completed }
    ∧ (checkedTodoServerFn (checkedTodoServerFn demoStore "1").store "1").result
        = .ok demoTodo
    ∧ prismaFindUnique
        (checkedTodoServerFn (checkedTodoServerFn demoStore "1").store "1").store "1"
        = some demoTodo :=
  checkedTodo_involution demoStore "1" demoTodo (by decide)

theorem updateTodo_found_eq (s : Store) (i title description : String) (t : Todo)
    (hfind : prismaFindUnique s i = some t)
    (hb : specInBounds title description) :
    updateTodoServerFn s i title description
      = ⟨.ok { t with title := title, description := description },
         ⟨s.todos.map (fun u =>
            if u.id = i then { t with title := title, description := description } else u),
          s.nextId⟩,
         [.update i { title := some title, description := some description }]⟩ := by
  have hu : updateSchemaIssues title description = [] :=
    (updateSchemaIssues_eq_nil _ _).mpr hb
  have hupd :=
    prismaUpdate_found s i { title := some title, description := some description } t hfind
  unfold updateTodoServerFn
  rw [hu]
  simp [hupd, applyPatch]

/-- C4.  For an existing id and in-bounds fields, the update server function
rewrites only `title` and `description`: the returned record keeps the
stored `completed` (and id), every other record is untouched, and the
multiset of `completed` flags of the store is unchanged; the create, delete
and edit-fetch paths never rewrite a surviving record either, so only the
toggle path writes `completed`. -/
theorem updateTodo_frame (s : Store) (i title description : String) (t : Todo)
    (hwf : storeWF s)
    (hfind : prismaFindUnique s i = some t)
    (hb : specInBounds title description) :
    (updateTodoServerFn s i title description).result
        = .ok { t with title := title, description := description }
    ∧ (updateTodoServerFn s i title description).store.todos
        = s.todos.map (fun u =>
            if u.id = i then { t with title := title, description := description } else u)
    ∧ (updateTodoServerFn s i title description).store.todos.map Todo.completed
        = s.todos.map Todo.completed
    ∧ (∀ a b : String, ∀ u ∈ s.todos, u ∈ (createTodoServerFn s a b).store.todos)
    ∧ (∀ j : String, ∀ u ∈ (deleteTodoServerFn s j).store.todos, u ∈ s.todos)
    ∧ (∀ j : String, (editTodoServerFn s j).store = s) := by
  have heq := updateTodo_found_eq s i title description t hfind hb
  have hmem : t ∈ s.todos :=
    List.mem_of_find?_eq_some (by simpa [prismaFindUnique] using hfind)
  have hid : t.id = i := by
    have hfind2 : s.todos.find? (fun u => u.id = i) = some t := by
      simpa [prismaFindUnique] using hfind
    simpa using List.find?_some hfind2
  refine ⟨by rw [heq], by rw [heq], ?_, ?_, ?_, fun j => rfl⟩
  · rw [heq]
    simp only [List.map_map]
    apply List.map_congr_left
    intro u hu
    by_cases hui : u.id = i
    · have hut : u = t := List.inj_on_of_nodup_map hwf hu hmem (by rw [hui, hid])
      subst hut
      simp [hui]
    · simp [hui]
  · intro a b u hu
    cases hc : formSchema a b with
    | nil => simp [createTodoServerFn, hc, prismaCreate, hu]
    | cons x xs => simp [createTodoServerFn, hc, hu]
  · intro j u hu
    cases hf : prismaFindUnique s j with
    | some t0 =>
      have hd := prismaDelete_found s j t0 hf
      simp only [deleteTodoServerFn, hd] at hu
      simp at hu
      exact hu.1
    | none =>
      have hd := prismaDelete_missing s j hf
      simp only [deleteTodoServerFn, hd] at hu
      simpa using hu

/-- Witness for C4 on the sample store. -/
theorem updateTodo_frame_witness :
    (updateTodoServerFn demoStore "1" "abcde" "abcdefghijklmnopqrst").result
        = .ok { demoTodo with title := "abcde", description := "abcdefghijklmnopqrst" }
    ∧ (updateTodoServerFn demoStore "1" "abcde" "abcdefghijklmnopqrst").store.todos
        = demoStore.todos.map (fun u =>
            if u.id = "1"
            then { demoTodo with title := "abcde", description := "abcdefghijklmnopqrst" }
            else u)
    ∧ (updateTodoServerFn demoStore "1" "abcde" "abcdefghijklmnopqrst").store.todos.map
          Todo.completed
        = demoStore.todos.map Todo.completed
    ∧ (∀ a b : String, ∀ u ∈ demoStore.todos, u ∈ (createTodoServerFn demoStore a b).store.todos)
    ∧ (∀ j : String, ∀ u ∈ (deleteTodoServerFn demoStore j).store.todos, u ∈ demoStore.todos)
    ∧ (∀ j : String, (editTodoServerFn demoStore j).store = demoStore) :=
  updateTodo_frame demoStore "1" "abcde" "abcdefghijklmnopqrst" demoTodo
    (by decide) (by decide) (by decide)

/-- C5.  Every operation targeting a missing id reaches its NotFound
outcome: the edit-fetch read resolves to the absent value, update and
delete propagate the P2025 error of the persistence layer, and the toggle
aborts on its explicit missing-record check; after a successful delete the
id reads back as absent and a second delete fails the same way. -/
theorem notFound_conditions (s : Store) (i title description : String)
    (hb : specInBounds title description) :
    (prismaFindUnique s i = none →
        (editTodoServerFn s i).result = .ok none
        ∧ (updateTodoServerFn s i title description).result = .error .prismaNotFound
        ∧ (checkedTodoServerFn s i).result = .error (.thrownError "Todo not found")
        ∧ (deleteTodoServerFn s i).result = .error .prismaNotFound)
    ∧ (∀ t0, prismaFindUnique s i = some t0 →
        prismaFindUnique (deleteTodoServerFn s i).store i = none
        ∧ (editTodoServerFn (deleteTodoServerFn s i).store i).result = .ok none
        ∧ (deleteTodoServerFn (deleteTodoServerFn s i).store i).result
            = .error .prismaNotFound) := by
  have hu : updateSchemaIssues title description = [] :=
    (updateSchemaIssues_eq_nil _ _).mpr hb
  constructor
  · intro hmiss
    refine ⟨by simp [editTodoServerFn, hmiss], ?_, by simp [checkedTodoServerFn, hmiss], ?_⟩
    · have hp :=
        prismaUpdate_missing s i { title := some title, description := some description } hmiss
      simp [updateTodoServerFn, hu, hp]
    · have hp := prismaDelete_missing s i hmiss
      simp [deleteTodoServerFn, hp]
  · intro t0 hfind
    have hd := prismaDelete_found s i t0 hfind
    have hstore : (deleteTodoServerFn s i).store
        = ⟨s.todos.filter (fun u => ¬ u.id = i), s.nextId⟩ := by
      simp [deleteTodoServerFn, hd]
    have hnone2 : prismaFindUnique ⟨s.todos.filter (fun u => ¬ u.id = i), s.nextId⟩ i = none := by
      unfold prismaFindUnique
      exact find?_id_filter_ne s.todos i
    have hnone : prismaFindUnique (deleteTodoServerFn s i).store i = none := by
      rw [hstore]
      exact hnone2
    refine ⟨hnone, by simp [editTodoServerFn, hnone], ?_⟩
    have hp := prismaDelete_missing _ i hnone2
    rw [hstore]
    simp only [decide_not] at hp
    simp [deleteTodoServerFn, hp]

/-- Witness for C5: the sample store has no id `"9"`, and deleting the
stored id `"1"` makes it unreadable and undeletable. -/
theorem notFound_conditions_witness :
    ((editTodoServerFn demoStore "9").result = .ok none
      ∧ (updateTodoServerFn demoStore "9" "abcde" "abcdefghijklmnopqrst").result
          = .error .prismaNotFound
      ∧ (checkedTodoServerFn demoStore "9").result = .error (.thrownError "Todo not found")
      ∧ (deleteTodoServerFn demoStore "9").result = .error .prismaNotFound)
    ∧ (prismaFindUnique (deleteTodoServerFn demoStore "1").store "1" = none
      ∧ (editTodoServerFn (deleteTodoServerFn demoStore "1").store "1").result = .ok none
      ∧ (deleteTodoServerFn (deleteTodoServerFn demoStore "1").store "1").result
          = .error .prismaNotFound) :=
  ⟨(notFound_conditions demoStore "9" "abcde" "abcdefghijklmnopqrst" (by decide)).1 (by decide),
   (notFound_conditions demoStore "1" "abcde" "abcdefghijklmnopqrst" (by decide)).2
      demoTodo (by decide)⟩

/-- Counterexample for C6: on the empty store, toggling a missing id makes
the handler throw a plain `Error` whose only content is the raw message
string, not a structured error identifying the failure kind. -/
theorem rawError_counterexample :
    (checkedTodoServerFn ⟨[], 0⟩ "1").result = .error (.thrownError "Todo not found")
    ∧ ServerError.structured (.thrownError "Todo not found") = false :=
  ⟨rfl, rfl⟩

/-- C6 (amended).  Every failing input is propagated to the caller as an
error: validation failures as the structured issue list, missing ids on the
delete and update paths as the structured P2025 persistence error — but
the toggle path propagates its missing-id failure as a plain thrown
`Error` carrying only the raw message `"Todo not found"`. -/
theorem handler_error_propagation (s : Store) (i title description : String) :
    (¬ specInBounds title description →
        (createTodoServerFn s title description).result
            = .error (.validationError (formSchema title description))
        ∧ (updateTodoServerFn s i title description).result
            = .error (.validationError (updateSchemaIssues title description))
        ∧ (ServerError.validationError (formSchema title description)).structured = true)
    ∧ (prismaFindUnique s i = none →
        (deleteTodoServerFn s i).result = .error .prismaNotFound
        ∧ ServerError.prismaNotFound.structured = true
        ∧ (specInBounds title description →
            (updateTodoServerFn s i title description).result = .error .prismaNotFound)
        ∧ (checkedTodoServerFn s i).result = .error (.thrownError "Todo not found")
        ∧ (ServerError.thrownError "Todo not found").structured = false) := by
  constructor
  · intro hnb
    have hf : formSchema title description ≠ [] :=
      fun h => hnb ((formSchema_eq_nil _ _).mp h)
    have hu : updateSchemaIssues title description ≠ [] :=
      fun h => hnb ((updateSchemaIssues_eq_nil _ _).mp h)
    refine ⟨?_, ?_, rfl⟩
    · cases hc : formSchema title description with
      | nil => exact absurd hc hf
      | cons x xs => simp [createTodoServerFn, hc]
    · cases hd : updateSchemaIssues title description with
      | nil => exact absurd hd hu
      | cons x xs => simp [updateTodoServerFn, hd]
  · intro hmiss
    refine ⟨?_, rfl, ?_, by simp [checkedTodoServerFn, hmiss], rfl⟩
    · have hp := prismaDelete_missing s i hmiss
      simp [deleteTodoServerFn, hp]
    · intro hb
      have hu : updateSchemaIssues title description = [] :=
        (updateSchemaIssues_eq_nil _ _).mpr hb
      have hp :=
        prismaUpdate_missing s i { title := some title, description := some description } hmiss
      simp [updateTodoServerFn, hu, hp]

/-- Witness for the amended C6 at concrete failing inputs. -/
theorem handler_error_propagation_witness :
    ((createTodoServerFn demoStore "Hi" "tiny").result
        = .error (.validationError (formSchema "Hi" "tiny"))
      ∧ (updateTodoServerFn demoStore "9" "Hi" "tiny").result
          = .error (.validationError (updateSchemaIssues "Hi" "tiny"))
      ∧ (ServerError.validationError (formSchema "Hi" "tiny")).structured = true)
    ∧ ((deleteTodoServerFn demoStore "9").result = .error .prismaNotFound
      ∧ ServerError.prismaNotFound.structured = true
      ∧ (specInBounds "abcde" "abcdefghijklmnopqrst" →
          (updateTodoServerFn demoStore "9" "abcde" "abcdefghijklmnopqrst").result
            = .error .prismaNotFound)
      ∧ (checkedTodoServerFn demoStore "9").result = .error (.thrownError "Todo not found")
      ∧ (ServerError.thrownError "Todo not found").structured = false) :=
  ⟨(handler_error_propagation demoStore "9" "Hi" "tiny").1 (by decide),
   (handler_error_propagation demoStore "9" "abcde" "abcdefghijklmnopqrst").2 (by decide)⟩

theorem createTodo_ok_eq (s : Store) (title description : String)
    (hb : specInBounds title description) :
    createTodoServerFn s title description
      = ⟨.ok ⟨freshId s, title, description, false⟩,
         ⟨s.todos ++ [⟨freshId s, title, description, false⟩], s.nextId + 1⟩,
         [.create title description false]⟩ := by
  have hf : formSchema title description = [] := (formSchema_eq_nil _ _).mpr hb
  simp [createTodoServerFn, hf, prismaCreate]

theorem createTodo_store_of_err (s : Store) (title description : String)
    (h : resultOk (createTodoServerFn s title description).result = false) :
    (createTodoServerFn s title description).store = s := by
  cases hc : formSchema title description with
  | nil => simp [createTodoServerFn, hc, resultOk] at h
  | cons x xs => simp [createTodoServerFn, hc]

theorem deleteTodo_store_of_err (s : Store) (i : String)
    (h : resultOk (deleteTodoServerFn s i).result = false) :
    (deleteTodoServerFn s i).store = s := by
  cases hd : prismaDelete s i with
  | ok c => simp [deleteTodoServerFn, hd, resultOk] at h
  | error e => simp [deleteTodoServerFn, hd]

theorem checkedTodo_store_of_err (s : Store) (i : String)
    (h : resultOk (checkedTodoServerFn s i).result = false) :
    (checkedTodoServerFn s i).store = s := by
  cases hf : prismaFindUnique s i with
  | some t =>
    rw [checkedTodo_found_eq s i t hf] at h
    simp [resultOk] at h
  | none => simp [checkedTodoServerFn, hf]

theorem updateTodo_store_of_err (s : Store) (i title description : String)
    (h : resultOk (updateTodoServerFn s i title description).result = false) :
    (updateTodoServerFn s i title description).store = s := by
  cases hd : updateSchemaIssues title description with
  | cons x xs => simp [updateTodoServerFn, hd]
  | nil =>
    cases hp : prismaUpdate s i { title := some title, description := some description } with
    | ok c => simp [updateTodoServerFn, hd, hp, resultOk] at h
    | error e => simp [updateTodoServerFn, hd, hp]

/-- C7.  If the server call behind a client action fails, the client
commits nothing: `listTodo`, `mode` and `editingTodo` are exactly as
before (the rejected `await` aborts the handler before any `setListTodo`,
`setMode` or `setEditingTodo` runs). -/
theorem client_unchanged_on_failure (cs : ClientState) (s : Store)
    (i title description : String) :
    (resultOk (deleteTodoServerFn s i).result = false →
        handleDeleteTodo cs s i = (cs, s))
    ∧ (resultOk (checkedTodoServerFn s i).result = false →
        handleCheckedTodo cs s i = (cs, s))
    ∧ (prismaFindUnique s i = none → handleEditTodo cs s i = (cs, s))
    ∧ (∀ e, cs.mode = .edit → cs.editingTodo = some e →
        resultOk (updateTodoServerFn s e.id title description).result = false →
        onSubmit cs s title description = (cs, s))
    ∧ ((cs.mode = .create ∨ cs.editingTodo = none) →
        resultOk (createTodoServerFn s title description).result = false →
        onSubmit cs s title description = (cs, s)) := by
  refine ⟨?_, ?_, ?_, ?_, ?_⟩
  · intro h
    have hs := deleteTodo_store_of_err s i h
    unfold handleDeleteTodo
    cases hr : deleteTodoServerFn s i with
    | mk res st cl =>
      rw [hr] at h hs
      dsimp only at h hs
      cases res with
      | ok a => simp [resultOk] at h
      | error e => rw [hs]
  · intro h
    have hs := checkedTodo_store_of_err s i h
    unfold handleCheckedTodo
    cases hr : checkedTodoServerFn s i with
    | mk res st cl =>
      rw [hr] at h hs
      dsimp only at h hs
      cases res with
      | ok a => simp [resultOk] at h
      | error e => rw [hs]
  · intro hmiss
    simp [handleEditTodo, editTodoServerFn, hmiss]
  · intro e hmode he h
    have hs := updateTodo_store_of_err s e.id title description h
    obtain ⟨l, m, et⟩ := cs
    dsimp only at hmode he
    subst hmode
    subst he
    unfold onSubmit
    dsimp only
    cases hr : updateTodoServerFn s e.id title description with
    | mk res st cl =>
      rw [hr] at h hs
      dsimp only at h hs
      cases res with
      | ok a => simp [resultOk] at h
      | error e2 => rw [hs]
  · intro hor h
    have hs := createTodo_store_of_err s title description h
    obtain ⟨l, m, et⟩ := cs
    unfold onSubmit
    rcases hor with hm | he
    · dsimp only at hm
      subst hm
      cases et with
      | none =>
        dsimp only
        cases hr : createTodoServerFn s title description with
        | mk res st cl =>
          rw [hr] at h hs
          dsimp only at h hs
          cases res with
          | ok a => simp [resultOk] at h
          | error e => rw [hs]
      | some e0 =>
        dsimp only
        cases hr : createTodoServerFn s title description with
        | mk res st cl =>
          rw [hr] at h hs
          dsimp only at h hs
          cases res with
          | ok a => simp [resultOk] at h
          | error e => rw [hs]
    · dsimp only at he
      subst he
      cases m with
      | create =>
        dsimp only
        cases hr : createTodoServerFn s title description with
        | mk res st cl =>
          rw [hr] at h hs
          dsimp only at h hs
          cases res with
          | ok a => simp [resultOk] at h
          | error e => rw [hs]
      | edit =>
        dsimp only
        cases hr : createTodoServerFn s title description with
        | mk res st cl =>
          rw [hr] at h hs
          dsimp only at h hs
          cases res with
          | ok a => simp [resultOk] at h
          | error e => rw [hs]

/-- Witness for C7: a failing delete and a failing create at concrete
inputs leave the sample client state untouched. -/
theorem client_unchanged_on_failure_witness :
    handleDeleteTodo demoClient demoStore "9" = (demoClient, demoStore)
    ∧ onSubmit demoClient demoStore "Hi" "tiny" = (demoClient, demoStore) :=
  ⟨(client_unchanged_on_failure demoClient demoStore "9" "Hi" "tiny").1 (by decide),
   (client_unchanged_on_failure demoClient demoStore "9" "Hi" "tiny").2.2.2.2
      (Or.inl rfl) (by decide)⟩

/-- C8.  Submitting in edit mode with a successful update replaces exactly
the list entry carrying the edited id by the record the server returned and
transitions the client to create mode with the form cleared; submitting in
create mode appends the returned record to the end of the list and leaves
the mode as it was (so a client in the create state stays there). -/
theorem submit_transitions (cs : ClientState) (s : Store) (title description : String)
    (hb : specInBounds title description) :
    (∀ e t, cs.mode = .edit → cs.editingTodo = some e →
        prismaFindUnique s e.id = some t →
        onSubmit cs s title description
          = (⟨cs.listTodo.map (fun u =>
                if u.id = e.id
                then { t with title := title, description := description }
                else u),
              .create, none⟩,
             (updateTodoServerFn s e.id title description).store))
    ∧ ((cs.mode = .create ∨ cs.editingTodo = none) →
        onSubmit cs s title description
          = ({ cs with listTodo := cs.listTodo ++ [⟨freshId s, title, description, false⟩] },
             (createTodoServerFn s title description).store)) := by
  constructor
  · intro e t hmode he hfind
    have heq := updateTodo_found_eq s e.id title description t hfind hb
    obtain ⟨l, m, et⟩ := cs
    dsimp only at hmode he
    subst hmode
    subst he
    unfold onSubmit
    dsimp only
    rw [heq]
    simp [handleCancelEdit]
  · intro hor
    have heq := createTodo_ok_eq s title description hb
    obtain ⟨l, m, et⟩ := cs
    rcases hor with hm | he
    · dsimp only at hm
      subst hm
      cases et with
      | none =>
        unfold onSubmit
        dsimp only
        rw [heq]
      | some e0 =>
        unfold onSubmit
        dsimp only
        rw [heq]
    · dsimp only at he
      subst he
      cases m with
      | create =>
        unfold onSubmit
        dsimp only
        rw [heq]
      | edit =>
        unfold onSubmit
        dsimp only
        rw [heq]

/-- Witness for C8: an edit-mode submit over the sample store and a
create-mode submit, both at concrete in-bounds inputs. -/
theorem submit_transitions_witness :
    onSubmit ⟨[demoTodo], .edit, some demoTodo⟩ demoStore "abcde" "abcdefghijklmnopqrst"
        = (⟨[demoTodo].map (fun u =>
              if u.id = demoTodo.id
              then { demoTodo with title := "abcde", description := "abcdefghijklmnopqrst" }
              else u),
            .create, none⟩,
           (updateTodoServerFn demoStore demoTodo.id "abcde" "abcdefghijklmnopqrst").store)
    ∧ onSubmit demoClient demoStore "abcde" "abcdefghijklmnopqrst"
        = ({ demoClient with
              listTodo := demoClient.listTodo
                ++ [⟨freshId demoStore, "abcde", "abcdefghijklmnopqrst", false⟩] },
           (createTodoServerFn demoStore "abcde" "abcdefghijklmnopqrst").store) :=
  ⟨(submit_transitions ⟨[demoTodo], .edit, some demoTodo⟩ demoStore
      "abcde" "abcdefghijklmnopqrst" (by decide)).1 demoTodo demoTodo rfl rfl (by decide),
   (submit_transitions demoClient demoStore
      "abcde" "abcdefghijklmnopqrst" (by decide)).2 (Or.inl rfl)⟩

/-- C9.  Creating a record from an in-bounds pair and reading it back by
the id the create call returned yields the very record the create call
returned: same title, description and `completed`. -/
theorem create_read_roundtrip (s : Store) (title description : String)
    (hb : specInBounds title description)
    (hfresh : ∀ u ∈ s.todos, ¬ u.id = freshId s) :
    ∃ r, (createTodoServerFn s title description).result = .ok r
      ∧ prismaFindUnique (createTodoServerFn s title description).store r.id = some r
      ∧ r.title = title ∧ r.description = description ∧ r.completed = false := by
  have heq := createTodo_ok_eq s title description hb
  refine ⟨⟨freshId s, title, description, false⟩, by rw [heq], ?_, rfl, rfl, rfl⟩
  rw [heq]
  unfold prismaFindUnique
  dsimp only
  have hnone : s.todos.find? (fun u => u.id = freshId s) = none :=
    List.find?_eq_none.mpr (fun u hu => by simpa using hfresh u hu)
  rw [List.find?_append, hnone]
  simp

/-- Witness for C9 on the sample store, whose only record does not carry
the fresh id `"2"`. -/
theorem create_read_roundtrip_witness :
    ∃ r, (createTodoServerFn demoStore "abcde" "abcdefghijklmnopqrst").result = .ok r
      ∧ prismaFindUnique (createTodoServerFn demoStore "abcde" "abcdefghijklmnopqrst").store
          r.id = some r
      ∧ r.title = "abcde" ∧ r.description = "abcdefghijklmnopqrst" ∧ r.completed = false :=
  create_read_roundtrip demoStore "abcde" "abcdefghijklmnopqrst" (by decide) (by decide)

/-- C10.  When the edited id does not exist, the edit-fetch resolves to the
absent value instead of raising, and the client performs no transition:
`mode` and `editingTodo` (and the list) stay exactly as they were, so the
client never enters edit mode for a nonexistent id. -/
theorem editFetch_absent_no_transition (cs : ClientState) (s : Store) (i : String)
    (hmiss : prismaFindUnique s i = none) :
    (editTodoServerFn s i).result = .ok none ∧ handleEditTodo cs s i = (cs, s) := by
  constructor
  · simp [editTodoServerFn, hmiss]
  · simp [handleEditTodo, editTodoServerFn, hmiss]

/-- Witness for C10: the sample store has no record with id `"9"`. -/
theorem editFetch_absent_no_transition_witness :
    (editTodoServerFn demoStore "9").result = .ok none
    ∧ handleEditTodo demoClient demoStore "9" = (demoClient, demoStore) :=
  editFetch_absent_no_transition demoClient demoStore "9" (by decide)

end TodoApp
